import Mathlib

/-!
Shallow embedding of the `time-slots-finder` library (sources:
`src/time-slots-dayjs.ts` and the luxon-backed variant) and proofs about it.

Modelling conventions:
* An instant is an integer number of milliseconds on a linear timeline whose
  zero point is 0001-01-01 00:00 UTC (proleptic Gregorian); day index 0 is a
  Monday, so `dayIndex % 7 + 1` is the ISO weekday.
* The configured time zone is modelled as a fixed offset `off` in minutes
  (an admissible instantiation of the date-library capability; DST
  transitions are outside the model).  `Int` division `/` and remainder `%`
  are Euclidean, which for the positive divisors used here coincide with the
  floor-based field extraction done by the date libraries.
* The system clock, read by the source via `dayjs()` / `DateTime.local()`,
  is threaded explicitly: `now` is the sampled instant and `nowYear` the
  sampled current year used for object parsing defaults and validation.
* The time-zone resolution capability is a predicate `tzOk` on zone names.
* JavaScript `null`/`undefined` optional fields are `Option` values; numbers
  are `Int` (the float corner cases `NaN` dates and non-integer minutes are
  outside the model).
-/

namespace TimeSlots

/-- Lexicographic comparison of character lists.  It models the sign of
JavaScript `String.prototype.localeCompare` on the ASCII digit/colon strings
(`"HH:MM"`) used by the library, where locale comparison agrees with
code-unit order. -/
def compareChars : List Char → List Char → Ordering
  | [], [] => .eq
  | [], _ :: _ => .lt
  | _ :: _, [] => .gt
  | a :: as, b :: bs =>
    if a < b then .lt else if b < a then .gt else compareChars as bs

/-- Comparison of strings through their character lists. -/
def compareStr (a b : String) : Ordering :=
  compareChars a.data b.data

/-- A daily shift, `startTime`/`endTime` in `HH:MM` format (source `Shift`). -/
structure Shift where
  startTime : String
  endTime : String
deriving DecidableEq

/-- Sort order of `_mergeOverlappingShifts`: the JS comparator returns
`a.startTime.localeCompare(b.startTime)`, so two elements stay in order
exactly when that sign is not positive.  JavaScript's `Array.prototype.sort`
is stable, hence extensionally equal to a stable insertion sort under this
consistent comparator. -/
def shiftRel (a b : Shift) : Prop :=
  compareStr a.startTime b.startTime ≠ Ordering.gt

instance : DecidableRel shiftRel := fun a b =>
  inferInstanceAs (Decidable (compareStr a.startTime b.startTime ≠ Ordering.gt))

/-- One pass of the splice-and-rewind loop of `_mergeOverlappingShifts`,
with the current shift held as a pending merge candidate `a`: whenever `a`
ends at or after the next shift starts they are merged (extending the end to
the later of the two) and the merged shift is re-examined against the new
next element; otherwise `a` is emitted. -/
def mergeInto (a : Shift) : List Shift → List Shift
  | [] => [a]
  | b :: rest =>
    if compareStr a.endTime b.startTime ≠ Ordering.lt then
      mergeInto { startTime := a.startTime,
                  endTime := if compareStr a.endTime b.endTime = Ordering.lt
                             then b.endTime else a.endTime } rest
    else
      a :: mergeInto b rest

/-- Sweep of `_mergeOverlappingShifts` over the sorted shift list. -/
def mergeRun : List Shift → List Shift
  | [] => []
  | a :: rest => mergeInto a rest

/-- Source `_mergeOverlappingShifts`: fewer than two shifts are returned as a
copy, otherwise the list is sorted by `startTime` and swept. -/
def mergeOverlappingShifts (shifts : List Shift) : List Shift :=
  if shifts.length < 2 then shifts
  else mergeRun (List.insertionSort shiftRel shifts)

/-- Gap relation left behind by the merging sweep: the earlier shift ends
strictly before the later one starts (no overlap and no touching). -/
def gapRel (a b : Shift) : Prop :=
  compareStr a.endTime b.startTime = Ordering.lt

/-- Local minute-of-hour field of an instant under a fixed offset `off`
(in minutes). -/
def localMinute (off t : Int) : Int :=
  (t / 60000 + off) % 60

/-- Seconds field of an instant (offsets are whole minutes, so it is
offset-independent). -/
def secondsField (t : Int) : Int :=
  t / 1000 % 60

/-- Start of the local calendar day containing `t`. -/
def startOfLocalDay (off t : Int) : Int :=
  (t + off * 60000) / 86400000 * 86400000 - off * 60000

/-- End of the local calendar day containing `t` (one millisecond before the
next day, as `endOf("day")` produces). -/
def endOfLocalDay (off t : Int) : Int :=
  startOfLocalDay off t + 86400000 - 1

/-- ISO weekday (1 = Monday … 7 = Sunday) of the local day containing `t`. -/
def isoWeekDayOf (off t : Int) : Int :=
  (t + off * 60000) / 86400000 % 7 + 1

/-- Gregorian leap-year test. -/
def isLeapYear (y : Int) : Bool :=
  (y % 4 == 0 && y % 100 != 0) || y % 400 == 0

/-- Day count of month `m` (1–12) in year `y`. -/
def daysInMonth (y m : Int) : Int :=
  if m = 2 then (if isLeapYear y then 29 else 28)
  else if m = 4 ∨ m = 6 ∨ m = 9 ∨ m = 11 then 30
  else 31

/-- Days before the first of month `m` (1–12) within year `y`. -/
def daysBeforeMonth (y m : Int) : Int :=
  (if m ≤ 1 then 0 else if m = 2 then 31 else if m = 3 then 59
   else if m = 4 then 90 else if m = 5 then 120 else if m = 6 then 151
   else if m = 7 then 181 else if m = 8 then 212 else if m = 9 then 243
   else if m = 10 then 273 else if m = 11 then 304 else 334)
  + (if 3 ≤ m ∧ isLeapYear y then 1 else 0)

/-- Days on the timeline before January 1 of year `y` (year 1 is day 0). -/
def daysBeforeYear (y : Int) : Int :=
  365 * (y - 1) + (y - 1) / 4 - (y - 1) / 100 + (y - 1) / 400

/-- Timeline day index of the civil date `y-m-d`.  For `d` beyond the length
of the month the date rolls over into the following months, exactly as the
JavaScript `Date` field-overflow behaviour behind `dayjs().add(1, "year")`. -/
def dayNumber (y m d : Int) : Int :=
  daysBeforeYear y + daysBeforeMonth y m + (d - 1)

/-- Instant of a civil date-time expressed in the fixed-offset zone `off`. -/
def civilToInstant (off y m d h mi : Int) : Int :=
  dayNumber y m d * 86400000 + h * 3600000 + mi * 60000 - off * 60000

/-- Source `PeriodMoment`: a possibly yearly-recurring calendar moment;
`month` is 0-based (0 = January) as in the source. -/
structure PeriodMoment where
  year : Option Int := none
  month : Int
  day : Int
  hour : Option Int := none
  minute : Option Int := none
deriving DecidableEq

/-- Source `Period`: a blocked period delimited by two `PeriodMoment`s. -/
structure Period where
  startAt : PeriodMoment
  endAt : PeriodMoment
deriving DecidableEq

/-- Source `AvailablePeriod`: shifts attached to an ISO weekday. -/
structure AvailablePeriod where
  isoWeekDay : Int
  shifts : List Shift
deriving DecidableEq

/-- Source `TimeSlotsFinderConfiguration`. -/
structure Configuration where
  timeSlotDuration : Int
  availablePeriods : List AvailablePeriod
  slotStartMinuteStep : Option Int := none
  unavailablePeriods : Option (List Period) := none
  minAvailableTimeBeforeSlot : Option Int := none
  minAvailableTimeAfterSlot : Option Int := none
  minTimeBeforeFirstSlot : Option Int := none
  maxDaysBeforeLastSlot : Option Int := none
  timeZone : String
deriving DecidableEq

/-- Source `DayjsPeriod`: a resolved absolute blocking interval. -/
structure DayjsPeriod where
  startAt : Int
  endAt : Int
deriving DecidableEq

/-- Source `TimeSlot`: an emitted slot with its duration in minutes. -/
structure TimeSlot where
  startAt : Int
  endAt : Int
  duration : Int
deriving DecidableEq

/-- Source `_nullOrGreaterThanOrEqualTo`. -/
def nullOrGreaterThanOrEqualTo (limit : Int) (value : Option Int) : Bool :=
  match value with
  | none => true
  | some v => limit ≤ v

/-- Source `_nullOrBetween`. -/
def nullOrBetween (mn mx : Int) (value : Option Int) : Bool :=
  match value with
  | none => true
  | some v => mn ≤ v && v ≤ mx

/-- Source `_checkTimeZone`: an empty name is missing (falsy), and the zone
must be resolvable by the date-library capability `tzOk`. -/
def checkTimeZone (tzOk : String → Bool) (timeZone : String) : Except String Unit :=
  if timeZone = "" then .error ("Missing time zone")
  else if tzOk timeZone then .ok ()
  else .error ("Invalid time zone")

/-- Source `_checkPrimitiveValue`.  The JS guard
`minBeforeFirst && maxBeforeLast && minBeforeFirst / (24*60) > maxBeforeLast`
is truthy only for nonzero values, and the exact rational comparison is
written multiplicatively. -/
def checkPrimitiveValue (tzOk : String → Bool) (c : Configuration) : Except String Unit := do
  if c.timeSlotDuration < 1 then
    throw ("Slot duration must be at least 1 minute")
  if !nullOrBetween 1 30 c.slotStartMinuteStep then
    throw ("Slot start minute step must be contained between 1 and 30")
  if !nullOrGreaterThanOrEqualTo 0 c.minAvailableTimeBeforeSlot then
    throw ("Time before a slot must be at least 0 minutes")
  if !nullOrGreaterThanOrEqualTo 0 c.minAvailableTimeAfterSlot then
    throw ("Time after a slot must be at least 0 minutes")
  if !nullOrGreaterThanOrEqualTo 0 c.minTimeBeforeFirstSlot then
    throw ("The number of minutes before first slot must be 0 or more")
  if !nullOrGreaterThanOrEqualTo 1 c.maxDaysBeforeLastSlot then
    throw ("The number of days before latest slot must be at least 1")
  checkTimeZone tzOk c.timeZone
  match c.minTimeBeforeFirstSlot, c.maxDaysBeforeLastSlot with
  | some minB, some maxB =>
    if minB ≠ 0 ∧ maxB ≠ 0 ∧ 1440 * maxB < minB then
      throw ("The first possible slot will always be after last one possible")
    else pure ()
  | _, _ => pure ()

/-- Pattern test of `_isShiftValid`: the regular expression
`^[0-9][0-9]:[0-9][0-9]$`. -/
def shiftPatternOk (s : String) : Bool :=
  match s.data with
  | [a, b, c, d, e] => a.isDigit && b.isDigit && c == ':' && d.isDigit && e.isDigit
  | _ => false

/-- Hour component parsed by `_isShiftValid` from the first two characters. -/
def shiftHour (s : String) : Int :=
  match s.data with
  | a :: b :: _ => ((10 * (a.toNat - 48) + (b.toNat - 48) : Nat) : Int)
  | _ => 0

/-- Minute component parsed by `_isShiftValid` from the last two characters. -/
def shiftMinute (s : String) : Int :=
  match s.data with
  | _ :: _ :: _ :: d :: e :: _ => ((10 * (d.toNat - 48) + (e.toNat - 48) : Nat) : Int)
  | _ => 0

/-- Source `_isShiftValid`. -/
def isShiftValid (sh : Shift) : Bool :=
  shiftPatternOk sh.startTime && shiftPatternOk sh.endTime
    && decide (0 ≤ shiftHour sh.startTime ∧ shiftHour sh.startTime ≤ 23)
    && decide (0 ≤ shiftMinute sh.startTime ∧ shiftMinute sh.startTime ≤ 59)
    && decide (0 ≤ shiftHour sh.endTime ∧ shiftHour sh.endTime ≤ 23)
    && decide (0 ≤ shiftMinute sh.endTime ∧ shiftMinute sh.endTime ≤ 59)
    && decide (compareStr sh.endTime sh.startTime = Ordering.gt)

/-- Source `_isPeriodMomentValid`.  Yearless moments (and moments with a
falsy `year`, i.e. 0) use the current year `nowYear` for the day-in-month
bound, since `dayjs()` is read there.  (The month-set day-overflow corner of
`dayjs().month(m)` — only observable when today's day-of-month exceeds the
target month's length — is outside the model.) -/
def isPeriodMomentValid (nowYear : Int) (pm : PeriodMoment) : Bool :=
  if pm.hour = none ∧ pm.minute ≠ none then false
  else if !((pm.year = none ∨ 0 < pm.year.getD 0) ∧ 0 ≤ pm.month ∧ pm.month ≤ 11 : Bool) then
    false
  else
    let y : Int := match pm.year with
      | some yy => if yy ≠ 0 then yy else nowYear
      | none => nowYear
    decide (1 ≤ pm.day ∧ pm.day ≤ daysInMonth y (pm.month + 1))
      && (match pm.hour with
          | none => true
          | some h => decide (0 ≤ h ∧ h ≤ 23))
      && (match pm.minute with
          | none => true
          | some mi => decide (0 ≤ mi ∧ mi ≤ 59))

/-- Civil instant of a `PeriodMoment` as `dayjs(object)` parses it (object
parsing fills a missing year with the current year and missing time fields
with 0; `month` is 0-based).  Used for the start/end comparison of
`_isUnavailablePeriodValid`, where the ambient zone cancels out, so offset 0
is used. -/
def momentCivil (nowYear : Int) (pm : PeriodMoment) : Int :=
  civilToInstant 0 (pm.year.getD nowYear) (pm.month + 1) pm.day (pm.hour.getD 0) (pm.minute.getD 0)

/-- Source `_isUnavailablePeriodValid`. -/
def isUnavailablePeriodValid (nowYear : Int) (p : Period) : Bool :=
  decide ((p.startAt.year = none) = (p.endAt.year = none))
    && isPeriodMomentValid nowYear p.startAt
    && isPeriodMomentValid nowYear p.endAt
    && (decide (p.startAt.year = none)
        || decide (momentCivil nowYear p.startAt < momentCivil nowYear p.endAt))

/-- Shift loop inside `_isAvailablePeriodValid`. -/
def checkShifts : List Shift → Except String Unit
  | [] => .ok ()
  | sh :: rest =>
    if !isShiftValid sh then .error ("Daily shift is invalid")
    else checkShifts rest

/-- Source `_isAvailablePeriodValid` (`Number.isInteger` always holds for the
model's `Int` field; error messages drop the 1-based indices interpolated by
the source). -/
def isAvailablePeriodValidE (p : AvailablePeriod) : Except String Unit := do
  if p.isoWeekDay < 1 ∨ 7 < p.isoWeekDay then
    throw ("ISO Weekday must be contains between 1 (Monday) and 7 (Sunday)")
  checkShifts p.shifts
  if (mergeOverlappingShifts p.shifts).length ≠ p.shifts.length then
    throw ("Some shifts are overlapping")
  pure ()

/-- Worked-period loop of `isConfigurationValid`. -/
def checkAvailablePeriods : List AvailablePeriod → Except String Unit
  | [] => .ok ()
  | p :: rest => do
    isAvailablePeriodValidE p
    checkAvailablePeriods rest

/-- Unworked-period loop of `isConfigurationValid`. -/
def checkUnavailablePeriods (nowYear : Int) : List Period → Except String Unit
  | [] => .ok ()
  | p :: rest =>
    if !isUnavailablePeriodValid nowYear p then .error ("Unavailable period is invalid")
    else checkUnavailablePeriods nowYear rest

/-- Source `isConfigurationValid`: throws a `TimeSlotsFinderError` with a
human-readable reason on the first violated rule, and otherwise returns
`true`.  (A `null` configuration and non-array fields are unrepresentable in
the model's types, so those two throws are not reachable here.) -/
def isConfigurationValid (tzOk : String → Bool) (nowYear : Int) (c : Configuration) :
    Except String Bool := do
  checkPrimitiveValue tzOk c
  checkAvailablePeriods c.availablePeriods
  (match c.unavailablePeriods with
   | none => .ok ()
   | some ps => checkUnavailablePeriods nowYear ps)
  pure true

/-- Source `_mergeOverlappingShiftsInAvailablePeriods`. -/
def mergeOverlappingShiftsInAvailablePeriods (ps : List AvailablePeriod) : List AvailablePeriod :=
  ps.map fun p => { p with shifts := mergeOverlappingShifts p.shifts }

/-- Configuration copy with each weekday's shifts merged, as built by
`_checkSearchParameters`. -/
def mergedConfig (c : Configuration) : Configuration :=
  { c with availablePeriods := mergeOverlappingShiftsInAvailablePeriods c.availablePeriods }

/-- Source `_checkSearchParameters` (dayjs variant): `null` bounds or
`from.getTime() > to.getTime()` fail, then the configuration is re-validated
after merging overlapping shifts.  (The merge in the model is total, so the
silencing `try/catch` around it never fires.) -/
def checkSearchParameters (tzOk : String → Bool) (nowYear : Int) (c : Configuration)
    (fromD toD : Option Int) : Except String Configuration := do
  (match fromD, toD with
   | some f, some t =>
     if t < f then .error ("Invalid boundaries for the search") else .ok ()
   | _, _ => .error ("Invalid boundaries for the search"))
  let usedConfig := mergedConfig c
  let _ ← isConfigurationValid tzOk nowYear usedConfig
  pure usedConfig

/-- Resolved end instant of an unavailable period for a given civil year:
periods without an `hour` resolve to the end of the local day (the
`.endOf("day")` instant, one millisecond before midnight). -/
def resolvePeriodEnd (off yr : Int) (pm : PeriodMoment) : Int :=
  if pm.hour = none then civilToInstant off yr (pm.month + 1) pm.day 0 0 + 86400000 - 1
  else civilToInstant off yr (pm.month + 1) pm.day (pm.hour.getD 0) (pm.minute.getD 0)

/-- Resolved start instant of an unavailable period: without an `hour` it is
the start of the local day (which also discards a stray `minute`). -/
def resolvePeriodStart (off yr : Int) (pm : PeriodMoment) : Int :=
  if pm.hour = none then civilToInstant off yr (pm.month + 1) pm.day 0 0
  else civilToInstant off yr (pm.month + 1) pm.day (pm.hour.getD 0) (pm.minute.getD 0)

/-- Consolidation of one unavailable period, following
`_getUnavailablePeriodAsEvents`: fields are carried textually into the
configured zone (missing year becomes the current year, missing time fields
0), day-only moments expand to whole days, and an end preceding the start —
only possible for yearless periods — is pushed one civil year later
(`add(1, "year")` keeps the remaining local fields, with JS field-overflow
semantics subsumed by `dayNumber`). -/
def consolidatePeriod (off nowYear : Int) (p : Period) : DayjsPeriod :=
  let startAt := resolvePeriodStart off (p.startAt.year.getD nowYear) p.startAt
  let ey := p.endAt.year.getD nowYear
  let endAt := resolvePeriodEnd off ey p.endAt
  if endAt < startAt then { startAt := startAt, endAt := resolvePeriodEnd off (ey + 1) p.endAt }
  else { startAt := startAt, endAt := endAt }

/-- Source `_getUnavailablePeriodAsEvents`. -/
def getUnavailablePeriodAsEvents (off nowYear : Int) (ps : List Period) : List DayjsPeriod :=
  ps.map (consolidatePeriod off nowYear)

/-- Source `_computeBoundaries`, with the two distinct `dayjs()` clock reads
made explicit: `nowLimit` is the read deciding the `maxDaysBeforeLastSlot`
horizon and `nowFirst` the read entering `firstFromMoment`.  A `0` horizon is
falsy in JS and disables the limit. -/
def computeBoundariesSites (off : Int) (fromD toD : Int) (c : Configuration)
    (nowLimit nowFirst : Int) : Int × Int :=
  let searchLimit : Option Int :=
    match c.maxDaysBeforeLastSlot with
    | some k => if k ≠ 0 then some (endOfLocalDay off (nowLimit + k * 86400000)) else none
    | none => none
  let firstFrom := max fromD
    (nowFirst + (c.minAvailableTimeBeforeSlot.getD 0 + c.minTimeBeforeFirstSlot.getD 0) * 60000)
  let lastTo := match searchLimit with
    | some l => min toD l
    | none => toD
  (firstFrom, lastTo)

/-- Boundary computation as used by the single-clock top-level model: both
call sites observe the same sampled instant. -/
def computeBoundaries (off : Int) (fromD toD : Int) (c : Configuration) (now : Int) : Int × Int :=
  computeBoundariesSites off fromD toD c now now

/-- Source `_getMomentsFromShift` (dayjs): setting hour and minute on the
moment keeps its sub-minute part (seconds and milliseconds). -/
def getMomentsFromShift (off t : Int) (sh : Shift) : Int × Int :=
  let base := startOfLocalDay off t
  let sub := t % 60000
  (base + shiftHour sh.startTime * 3600000 + shiftMinute sh.startTime * 60000 + sub,
   base + shiftHour sh.endTime * 3600000 + shiftMinute sh.endTime * 60000 + sub)

/-- Source `_getMinTimeWindowNeeded`. -/
def getMinTimeWindowNeeded (c : Configuration) : Int :=
  c.minAvailableTimeBeforeSlot.getD 0 + c.timeSlotDuration + c.minAvailableTimeAfterSlot.getD 0

/-- Source `_nextSearchMoment`: round up to the next whole minute when the
seconds field is nonzero, add the before-buffer, round that minute up to the
next multiple of the step, and zero the milliseconds. -/
def nextSearchMoment (off : Int) (c : Configuration) (t : Int) : Int :=
  let nextMoment := if secondsField t ≠ 0 then (t / 60000 + 1) * 60000 else t
  let slotStartAt := nextMoment + c.minAvailableTimeBeforeSlot.getD 0 * 60000
  let step := c.slotStartMinuteStep.getD 5
  let minuteToAdd := (step - localMinute off slotStartAt % step) % step
  let r := nextMoment + minuteToAdd * 60000
  r - r % 1000

/-- Source `_filterPeriods`: drop events strictly outside the boundaries. -/
def filterPeriods (ps : List DayjsPeriod) (f t : Int) : List DayjsPeriod :=
  ps.filter fun p => decide (p.startAt < t) && decide (f < p.endAt)

/-- Source `_sortPeriods`: the JS comparator returns 1 exactly when
`a.startAt` is after `b.startAt`, so elements stay in order when
`a.startAt ≤ b.startAt` (stable sort, modelled by insertion sort). -/
def sortPeriods (ps : List DayjsPeriod) : List DayjsPeriod :=
  List.insertionSort (fun a b => a.startAt ≤ b.startAt) ps

/-- Source `_findEmcompassingEvent`: linear scan with early exit on the
first later-starting event. -/
def findEncompassingEvent : List DayjsPeriod → DayjsPeriod → Bool
  | [], _ => false
  | cur :: rest, e =>
    if cur.startAt ≤ e.startAt ∧ e.endAt < cur.endAt then true
    else if e.startAt < cur.startAt then false
    else findEncompassingEvent rest e

/-- Source `_prepareEvents`: filter, sort by start, drop encompassed
events. -/
def prepareEvents (ps : List DayjsPeriod) (f t : Int) : List DayjsPeriod :=
  let sorted := sortPeriods (filterPeriods ps f t)
  sorted.filter fun e => !findEncompassingEvent sorted e

/-- Source `_pushNewSlot`: returns the next cursor position and the emitted
slot (its duration is the minute difference of its bounds). -/
def pushNewSlot (c : Configuration) (t : Int) : Int × TimeSlot :=
  let startAt := t + c.minAvailableTimeBeforeSlot.getD 0 * 60000
  let endAt := startAt + c.timeSlotDuration * 60000
  let minutesBeforeNextSearch :=
    max (c.minAvailableTimeAfterSlot.getD 0 - c.minAvailableTimeBeforeSlot.getD 0) 0
  (endAt + minutesBeforeNextSearch * 60000,
   { startAt := startAt, endAt := endAt, duration := (endAt - startAt) / 60000 })

/-- Cursor loop of `_getAvailableTimeSlotsForShift` (dayjs).  The event index
is an `Int` as `findIndex` returns -1 when no event qualifies; a fuel
argument bounds the iteration (the source loop's progress measure is not
needed for the safety properties proved below, and concrete runs are
evaluated with ample fuel). -/
def sweepGo (off : Int) (c : Configuration) (cleaned : List DayjsPeriod) (searchEnd : Int) :
    Nat → Int → Int → List TimeSlot
  | 0, _, _ => []
  | fuel + 1, s, idx =>
    if s ≤ searchEnd then
      let focused : Option DayjsPeriod := if 0 ≤ idx then cleaned[idx.toNat]? else none
      let r := nextSearchMoment off c s
      let freeTimeLimit := r + getMinTimeWindowNeeded c * 60000
      match focused with
      | some ev =>
        if ev.startAt < freeTimeLimit then
          sweepGo off c cleaned searchEnd fuel ev.endAt (idx + 1)
        else
          (pushNewSlot c r).2 :: sweepGo off c cleaned searchEnd fuel (pushNewSlot c r).1 idx
      | none =>
        (pushNewSlot c r).2 :: sweepGo off c cleaned searchEnd fuel (pushNewSlot c r).1 idx
    else []

/-- Source `_getAvailableTimeSlotsForShift` (dayjs).  Note the source's local
`minAvailableTimeAfterSlot` constant is actually
`timeSlotDuration + minAvailableTimeBeforeSlot`. -/
def getAvailableTimeSlotsForShift (off : Int) (c : Configuration) (events : List DayjsPeriod)
    (fromM toM : Int) (fuel : Nat) : List TimeSlot :=
  let before := c.minAvailableTimeBeforeSlot.getD 0
  let afterLocal := c.timeSlotDuration + before
  let searchStart := fromM - before * 60000
  let searchEnd := toM - afterLocal * 60000
  let cleaned := prepareEvents events (fromM - before * 60000) (toM + afterLocal * 60000)
  let idx0 : Int := match cleaned.findIdx? (fun e => decide (searchStart < e.endAt)) with
    | some j => (j : Int)
    | none => -1
  sweepGo off c cleaned searchEnd fuel searchStart idx0

/-- Slots contributed by the shifts of one day, with the clipping of shift
boundaries to the global window (`return` on `!isSameOrBefore`); the
clipped bounds are the source's locals for the clipped window. -/
def slotsForDay (off : Int) (c : Configuration) (events : List DayjsPeriod)
    (firstFrom lastTo : Int) (sweepFuel : Nat) (t : Int) : List TimeSlot :=
  match c.availablePeriods.find? (fun p => decide (p.isoWeekDay = isoWeekDayOf off t)) with
  | some wd =>
    wd.shifts.flatMap fun sh =>
      let moments := getMomentsFromShift off t sh
      let clippedFrom := max firstFrom moments.1
      let clippedTo := min lastTo moments.2
      if clippedFrom ≤ clippedTo then
        getAvailableTimeSlotsForShift off c events clippedFrom clippedTo sweepFuel
      else []
  | none => []

/-- Day iteration of `getAvailableTimeSlotsInCalendar` (dayjs): advance to
each next day's local start while before `lastTo`. -/
def dayLoop (off : Int) (c : Configuration) (events : List DayjsPeriod)
    (firstFrom lastTo : Int) (sweepFuel : Nat) : Nat → Int → List TimeSlot
  | 0, _ => []
  | fuel + 1, t =>
    if t < lastTo then
      slotsForDay off c events firstFrom lastTo sweepFuel t
        ++ dayLoop off c events firstFrom lastTo sweepFuel fuel (startOfLocalDay off (t + 86400000))
    else []

/-- Source `getAvailableTimeSlotsInCalendar` (dayjs variant), with the clock
threaded explicitly (`now`, and `nowYear` for the year defaults of object
parsing and validation). -/
def getAvailableTimeSlotsInCalendar (off : Int) (tzOk : String → Bool) (now nowYear : Int)
    (c : Configuration) (fromD toD : Option Int) (dayFuel sweepFuel : Nat) :
    Except String (List TimeSlot) := do
  let usedConfig ← checkSearchParameters tzOk nowYear c fromD toD
  let events := getUnavailablePeriodAsEvents off nowYear (usedConfig.unavailablePeriods.getD [])
  let boundaries := computeBoundaries off (fromD.getD 0) (toD.getD 0) usedConfig now
  pure (dayLoop off usedConfig events boundaries.1 boundaries.2 sweepFuel dayFuel boundaries.1)

namespace Luxon

/-- Civil instant of a `PeriodMoment` as luxon's `DateTime.fromObject`
parses it: a missing year defaults to the current year, missing time fields
to 0, and — unlike the 0-based convention of the configuration —
`fromObject` interprets `month` as 1-based, so the configured value is used
as-is. -/
def momentCivil (off nowYear : Int) (pm : PeriodMoment) : Int :=
  civilToInstant off (pm.year.getD nowYear) pm.month pm.day (pm.hour.getD 0) (pm.minute.getD 0)

/-- Luxon-file `_isUnavailablePeriodValid`: the only difference from the
dayjs variant is the comparison through `DateTime.fromObject`. -/
def isUnavailablePeriodValid (nowYear : Int) (p : Period) : Bool :=
  decide ((p.startAt.year = none) = (p.endAt.year = none))
    && isPeriodMomentValid nowYear p.startAt
    && isPeriodMomentValid nowYear p.endAt
    && (decide (p.startAt.year = none)
        || decide (momentCivil 0 nowYear p.startAt < momentCivil 0 nowYear p.endAt))

/-- Unworked-period loop of the luxon `isConfigurationValid`. -/
def checkUnavailablePeriods (nowYear : Int) : List Period → Except String Unit
  | [] => .ok ()
  | p :: rest =>
    if !isUnavailablePeriodValid nowYear p then .error ("Unavailable period is invalid")
    else checkUnavailablePeriods nowYear rest

/-- Luxon-file `isConfigurationValid`.  Its `_checkPrimitiveValue` body is
elided in the file behind a comment declaring the same checks as the
original, so the dayjs `checkPrimitiveValue` is reused. -/
def isConfigurationValid (tzOk : String → Bool) (nowYear : Int) (c : Configuration) :
    Except String Bool := do
  checkPrimitiveValue tzOk c
  checkAvailablePeriods c.availablePeriods
  (match c.unavailablePeriods with
   | none => .ok ()
   | some ps => checkUnavailablePeriods nowYear ps)
  pure true

/-- Luxon-file `_checkSearchParameters`: validates the raw configuration
first, then rejects invalid bounds with `from >= to`, and only then merges
overlapping shifts into the returned copy. -/
def checkSearchParameters (tzOk : String → Bool) (nowYear : Int) (c : Configuration)
    (fromD toD : Option Int) : Except String Configuration := do
  let _ ← isConfigurationValid tzOk nowYear c
  (match fromD, toD with
   | some f, some t => if t ≤ f then .error ("Invalid date parameters") else .ok ()
   | _, _ => .error ("Invalid date parameters"))
  pure (mergedConfig c)

/-- Luxon-file `_getUnavailablePeriodAsEvents`: a plain `fromObject` of both
endpoints — no day-only expansion and no year-wrap adjustment. -/
def getUnavailablePeriodAsEvents (off nowYear : Int) (ps : List Period) : List DayjsPeriod :=
  ps.map fun p => { startAt := momentCivil off nowYear p.startAt,
                    endAt := momentCivil off nowYear p.endAt }

/-- Luxon-file `_getMomentsFromShift`: sets hour/minute with second and
millisecond 0.  (The wrap-around `endAt.plus({days: 1})` in the source
discards its result, a no-op faithfully absent here.) -/
def getMomentsFromShift (off t : Int) (sh : Shift) : Int × Int :=
  let base := startOfLocalDay off t
  (base + shiftHour sh.startTime * 3600000 + shiftMinute sh.startTime * 60000,
   base + shiftHour sh.endTime * 3600000 + shiftMinute sh.endTime * 60000)

/-- Luxon-file `_getAvailableTimeSlotsForShift`: steps from `from` in plain
duration increments, keeping a slot unless the slot interval engulfs an
event interval (`slot.start ≤ event.start` and `event.end ≤ slot.end`). -/
def sweepLuxon (dur : Int) (events : List DayjsPeriod) (toM : Int) :
    Nat → Int → List TimeSlot
  | 0, _ => []
  | fuel + 1, sM =>
    let eM := sM + dur * 60000
    if eM ≤ toM then
      (if events.all (fun ev => !(decide (sM ≤ ev.startAt) && decide (ev.endAt ≤ eM))) then
        [{ startAt := sM, endAt := eM, duration := (eM - sM) / 60000 }]
      else [])
        ++ sweepLuxon dur events toM fuel (sM + dur * 60000)
    else []

/-- Day contribution of the luxon variant; a shift is skipped when
`clippedFrom >= clippedTo`. -/
def slotsForDay (off : Int) (c : Configuration) (events : List DayjsPeriod)
    (firstFrom lastTo : Int) (sweepFuel : Nat) (t : Int) : List TimeSlot :=
  match c.availablePeriods.find? (fun p => decide (p.isoWeekDay = isoWeekDayOf off t)) with
  | some wd =>
    wd.shifts.flatMap fun sh =>
      let moments := getMomentsFromShift off t sh
      let clippedFrom := max firstFrom moments.1
      let clippedTo := min lastTo moments.2
      if clippedFrom < clippedTo then
        sweepLuxon c.timeSlotDuration events clippedTo sweepFuel clippedFrom
      else []
  | none => []

/-- Day iteration of the luxon `getAvailableTimeSlotsInCalendar`. -/
def dayLoop (off : Int) (c : Configuration) (events : List DayjsPeriod)
    (firstFrom lastTo : Int) (sweepFuel : Nat) : Nat → Int → List TimeSlot
  | 0, _ => []
  | fuel + 1, t =>
    if t < lastTo then
      slotsForDay off c events firstFrom lastTo sweepFuel t
        ++ dayLoop off c events firstFrom lastTo sweepFuel fuel (startOfLocalDay off (t + 86400000))
    else []

/-- Luxon-file `getAvailableTimeSlotsInCalendar` (`_computeBoundaries` is
identical to the dayjs one and is shared). -/
def getAvailableTimeSlotsInCalendar (off : Int) (tzOk : String → Bool) (now nowYear : Int)
    (c : Configuration) (fromD toD : Option Int) (dayFuel sweepFuel : Nat) :
    Except String (List TimeSlot) := do
  let usedConfig ← checkSearchParameters tzOk nowYear c fromD toD
  let events := getUnavailablePeriodAsEvents off nowYear (usedConfig.unavailablePeriods.getD [])
  let boundaries := computeBoundaries off (fromD.getD 0) (toD.getD 0) usedConfig now
  pure (dayLoop off usedConfig events boundaries.1 boundaries.2 sweepFuel dayFuel boundaries.1)

end Luxon

/-!
Concrete scenarios.  Instants are milliseconds from Monday 0001-01-01 00:00
in a zone of offset 0, so day 0 is a Monday (ISO weekday 1) and day 4 a
Friday (ISO weekday 5).
-/

/-- Time-zone capability resolving every zone name. -/
def tzAlways : String → Bool := fun _ => true

/-- Weekday config with two overlapping Monday shifts (9–12 and 10–13). -/
def cfgOverlappingShifts : Configuration :=
  { timeSlotDuration := 60,
    availablePeriods := [⟨1, [⟨"09:00", "12:00"⟩, ⟨"10:00", "13:00"⟩]⟩],
    timeZone := "UTC" }

/-- One-minute slots on a Monday 10:00–10:35 shift, 30-minute alignment
step, and a blocked period 10:36–12:00 on Monday 0001-01-01. -/
def cfgStepThirty : Configuration :=
  { timeSlotDuration := 1,
    availablePeriods := [⟨1, [⟨"10:00", "10:35"⟩]⟩],
    slotStartMinuteStep := some 30,
    unavailablePeriods := some
      [⟨{ year := some 1, month := 0, day := 1, hour := some 10, minute := some 36 },
        { year := some 1, month := 0, day := 1, hour := some 12, minute := some 0 }⟩],
    timeZone := "UTC" }

/-- The blocked period of `cfgStepThirty`, for stating its consolidation. -/
def periodTenThirtySix : Period :=
  ⟨{ year := some 1, month := 0, day := 1, hour := some 10, minute := some 36 },
   { year := some 1, month := 0, day := 1, hour := some 12, minute := some 0 }⟩

/-- Quarter-hour slots with a 10-minute after-buffer on a Monday 10:00–20:00
shift. -/
def cfgAfterBuffer : Configuration :=
  { timeSlotDuration := 15,
    availablePeriods := [⟨1, [⟨"10:00", "20:00"⟩]⟩],
    minAvailableTimeAfterSlot := some 10,
    timeZone := "UTC" }

/-- Ten-minute slots with a 2-minute before-buffer (the spec's alignment
scenario) on a Monday 12:00–22:00 shift. -/
def cfgBeforeTwo : Configuration :=
  { timeSlotDuration := 10,
    availablePeriods := [⟨1, [⟨"12:00", "22:00"⟩]⟩],
    minAvailableTimeBeforeSlot := some 2,
    timeZone := "UTC" }

/-- Quarter-hour slots on a Friday 10:00–20:00 shift (the benchmark
configuration shared by both implementations). -/
def cfgFridayShift : Configuration :=
  { timeSlotDuration := 15,
    availablePeriods := [⟨5, [⟨"10:00", "20:00"⟩]⟩],
    timeZone := "UTC" }

/-- Minimal configuration with a one-day booking horizon. -/
def cfgHorizonOne : Configuration :=
  { timeSlotDuration := 15,
    availablePeriods := [],
    maxDaysBeforeLastSlot := some 1,
    timeZone := "UTC" }

/-- Yearly-recurring blocked period December 20 → January 5 (months are
0-based), wrapping across the year boundary. -/
def periodDecToJan : Period :=
  ⟨{ year := none, month := 11, day := 20 }, { year := none, month := 0, day := 5 }⟩

/-- C1: the claim says every slot emitted by a `FindAvailableSlots` call is
disjoint from every consolidated blocking event.  The dayjs implementation
violates it: with one-minute slots, a 30-minute alignment step and a Monday
10:00–10:35 shift searched from 10:29 to 10:35, the minute-rounding of the
cursor overshoots the shift end and the call emits a slot 11:00–11:01 lying
strictly inside the consolidated blocked event 10:36–12:00 (which the
per-shift event filter had discarded as out of range).  The slot also ends
after the search window, contradicting the source's own comment that no
created slot may finish after the `to` boundary. -/
theorem slot_overlaps_consolidated_event :
    getAvailableTimeSlotsInCalendar 0 tzAlways 0 1 cfgStepThirty
        (some 37740000) (some 38100000) 3 20
      = .ok [⟨37800000, 37860000, 1⟩, ⟨39600000, 39660000, 1⟩]
    ∧ getUnavailablePeriodAsEvents 0 1 [periodTenThirtySix] = [⟨38160000, 43200000⟩]
    ∧ (38160000 : Int) < 39660000 ∧ (39600000 : Int) < 43200000 :=
  ⟨rfl, rfl, by decide, by decide⟩

/-- C2: the claim says the dayjs-backed and luxon-backed
`getAvailableTimeSlotsInCalendar` compute the same function.  They do not:
on the shared benchmark configuration (15-minute slots, Friday 10:00–20:00)
searched over Friday 10:03–10:40, the dayjs implementation emits
step-aligned slots 10:05–10:20 and 10:20–10:35 while the luxon file emits
unaligned slots 10:03–10:18 and 10:18–10:33. -/
theorem dayjs_luxon_implementations_disagree :
    getAvailableTimeSlotsInCalendar 0 tzAlways 345600000 1 cfgFridayShift
        (some 381780000) (some 384000000) 3 20
      = .ok [⟨381900000, 382800000, 15⟩, ⟨382800000, 383700000, 15⟩]
    ∧ Luxon.getAvailableTimeSlotsInCalendar 0 tzAlways 345600000 1 cfgFridayShift
        (some 381780000) (some 384000000) 3 20
      = .ok [⟨381780000, 382680000, 15⟩, ⟨382680000, 383580000, 15⟩]
    ∧ ([⟨381900000, 382800000, 15⟩, ⟨382800000, 383700000, 15⟩] : List TimeSlot)
      ≠ [⟨381780000, 382680000, 15⟩, ⟨382680000, 383580000, 15⟩] :=
  ⟨rfl, rfl, by decide⟩

/-- C3: the claim says the per-shift cursor loop stops once the cursor
exceeds `to − (before + duration + after)` and hence every slot leaves at
least `minAvailableTimeAfterSlot` free minutes before the shift end.  The
dayjs loop bound actually subtracts only `duration + before` (the source's
misnamed local `minAvailableTimeAfterSlot`): with 15-minute slots and a
10-minute after-buffer over a window ending 16:00, the call emits a second
slot 15:40–15:55 although its cursor 15:40 exceeds the claimed bound 15:35,
leaving only 5 free minutes — the situation the repository's own
`minAvailableTimeAfterSlot` test expects a single slot for. -/
theorem sweep_ignores_after_buffer_in_loop_bound :
    getAvailableTimeSlotsInCalendar 0 tzAlways 0 1 cfgAfterBuffer
        (some 54900000) (some 57600000) 3 20
      = .ok [⟨54900000, 55800000, 15⟩, ⟨56400000, 57300000, 15⟩]
    ∧ (57600000 : Int) - 57300000 < 10 * 60000
    ∧ (57600000 : Int) - (15 + 10) * 60000 < 56400000 :=
  ⟨rfl, by decide, by decide⟩

/-- C10: a configuration with two overlapping Monday shifts is rejected by
`isConfigurationValid` (merging would reduce the shift count), yet the dayjs
`getAvailableTimeSlotsInCalendar` accepts the very same configuration —
because it validates a copy whose shifts were already merged — and returns
four hourly slots over Monday 9:00–13:00. -/
theorem overlapping_shifts_rejected_by_validator_accepted_by_search :
    isConfigurationValid tzAlways 1 cfgOverlappingShifts
      = .error ("Some shifts are overlapping")
    ∧ getAvailableTimeSlotsInCalendar 0 tzAlways 0 1 cfgOverlappingShifts
        (some 32400000) (some 46800000) 3 20
      = .ok [⟨32400000, 36000000, 60⟩, ⟨36000000, 39600000, 60⟩,
             ⟨39600000, 43200000, 60⟩, ⟨43200000, 46800000, 60⟩]
    ∧ ([⟨32400000, 36000000, 60⟩, ⟨36000000, 39600000, 60⟩,
        ⟨39600000, 43200000, 60⟩, ⟨43200000, 46800000, 60⟩] : List TimeSlot) ≠ [] :=
  ⟨rfl, rfl, by decide⟩

/-- C4 counterexample: the claim's alignment formula subtracts the
before-buffer from the start minute.  In the spec's own scenario (10-minute
slots, 2-minute before-buffer, step 5, clock at 15:03:12, window
15:00–16:00) the first emitted slot starts at 15:10, and
`(10 − 2) mod 5 = 3 ≠ 0`. -/
theorem slot_minute_minus_before_misaligned :
    getAvailableTimeSlotsInCalendar 0 tzAlways 54192000 1 cfgBeforeTwo
        (some 54000000) (some 57600000) 3 30
      = .ok [⟨54600000, 55200000, 10⟩, ⟨55500000, 56100000, 10⟩, ⟨56400000, 57000000, 10⟩]
    ∧ (localMinute 0 54600000 - 2) % 5 ≠ 0 :=
  ⟨rfl, by decide⟩

/-- C5 counterexample: the claim says every call with `from` equal to `to`
fails with the search-window error.  The dayjs boundary check uses a strict
`>` comparison, so such a call succeeds and returns an empty slot list. -/
theorem equal_bounds_accepted :
    getAvailableTimeSlotsInCalendar 0 tzAlways 345600000 1 cfgFridayShift
        (some 381780000) (some 381780000) 3 20 = .ok [] :=
  rfl

/-- C8 counterexample: the claim says one call reads the current instant
exactly once, so no boundary computation can observe a second, different
clock value.  `_computeBoundaries` contains two separate `dayjs()` reads;
holding the first (horizon) read fixed and moving only the second read by a
minute changes the computed boundaries, so the output genuinely depends on
more than one clock read. -/
theorem boundaries_second_clock_observed :
    computeBoundariesSites 0 0 864000000 cfgHorizonOne 0 0
      ≠ computeBoundariesSites 0 0 864000000 cfgHorizonOne 0 60000 := by
  decide

/-- C8 (amended): the dayjs call reads the clock at several sites (twice
inside `_computeBoundaries`, and again per period moment during
validation), not exactly once; but whenever both boundary reads observe the
same instant, the computed boundaries are the single-instant function of the
explicit inputs and that instant given by the spec's formulas
(`firstFrom = max(from, now + before + leadTime)`,
`lastTo = min(to, end of day of now + horizon)` when a nonzero horizon is
configured). -/
theorem boundaries_of_single_instant (off fromD toD : Int) (c : Configuration) (now : Int) :
    computeBoundariesSites off fromD toD c now now
      = (max fromD (now + (c.minAvailableTimeBeforeSlot.getD 0
            + c.minTimeBeforeFirstSlot.getD 0) * 60000),
         match c.maxDaysBeforeLastSlot with
         | some k => if k ≠ 0 then min toD (endOfLocalDay off (now + k * 86400000)) else toD
         | none => toD) := by
  unfold computeBoundariesSites
  cases c.maxDaysBeforeLastSlot with
  | none => rfl
  | some k => by_cases hk : k = 0 <;> simp [hk]

/-- C9: `isConfigurationValid` never returns `false`: for every time-zone
capability, current year and configuration it either fails with a
human-readable reason or returns `true`. -/
theorem isConfigurationValid_errors_or_true (tzOk : String → Bool) (nowYear : Int)
    (c : Configuration) :
    (∃ msg, isConfigurationValid tzOk nowYear c = .error msg)
      ∨ isConfigurationValid tzOk nowYear c = .ok true := by
  unfold isConfigurationValid
  cases h1 : checkPrimitiveValue tzOk c with
  | error e => exact Or.inl ⟨e, by simp [h1, Bind.bind, Except.bind]⟩
  | ok u =>
    cases h2 : checkAvailablePeriods c.availablePeriods with
    | error e => exact Or.inl ⟨e, by simp [h1, h2, Bind.bind, Except.bind]⟩
    | ok v =>
      cases h3 : (match c.unavailablePeriods with
        | none => (Except.ok () : Except String Unit)
        | some ps => checkUnavailablePeriods nowYear ps) with
      | error e => exact Or.inl ⟨e, by simp [h1, h2, h3, Bind.bind, Except.bind]⟩
      | ok w => exact Or.inr (by simp [h1, h2, h3, Bind.bind, Except.bind, pure, Except.pure])

/-- Successful run of the dayjs `_checkSearchParameters`: well-ordered
present bounds and a valid merged configuration produce the merged copy. -/
theorem checkSearchParameters_ok (tzOk : String → Bool) (nowYear : Int) (c : Configuration)
    (f t : Int) (hft : ¬ t < f)
    (hval : isConfigurationValid tzOk nowYear (mergedConfig c) = .ok true) :
    checkSearchParameters tzOk nowYear c (some f) (some t) = .ok (mergedConfig c) := by
  unfold checkSearchParameters
  simp [hft, hval, Bind.bind, Except.bind, pure, Except.pure]

/-- A day loop started at or beyond `lastTo` performs no iteration. -/
theorem dayLoop_nil_of_le (off : Int) (c : Configuration) (events : List DayjsPeriod)
    (firstFrom lastTo : Int) (sweepFuel : Nat) (fuel : Nat) (t : Int) (h : lastTo ≤ t) :
    dayLoop off c events firstFrom lastTo sweepFuel fuel t = [] := by
  cases fuel with
  | zero => rfl
  | succ n =>
    unfold dayLoop
    rw [if_neg (by omega)]

/-- The computed `lastTo` never exceeds the caller's `to`. -/
theorem computeBoundaries_lastTo_le (off f t : Int) (c : Configuration) (now : Int) :
    (computeBoundaries off f t c now).2 ≤ t := by
  unfold computeBoundaries computeBoundariesSites
  cases c.maxDaysBeforeLastSlot with
  | none => simp
  | some k => by_cases hk : k = 0 <;> simp [hk, min_le_left]

/-- The computed `firstFrom` never precedes the caller's `from`. -/
theorem computeBoundaries_from_le_firstFrom (off f t : Int) (c : Configuration) (now : Int) :
    f ≤ (computeBoundaries off f t c now).1 := by
  unfold computeBoundaries computeBoundariesSites
  exact le_max_left _ _

/-- A dayjs call whose bounds are present and well-ordered and whose merged
configuration validates returns the day-loop result. -/
theorem getAvailable_ok_of_valid (off : Int) (tzOk : String → Bool) (now nowYear : Int)
    (c : Configuration) (f t : Int) (dayFuel sweepFuel : Nat) (hft : ¬ t < f)
    (hval : isConfigurationValid tzOk nowYear (mergedConfig c) = .ok true) :
    getAvailableTimeSlotsInCalendar off tzOk now nowYear c (some f) (some t) dayFuel sweepFuel
      = .ok (dayLoop off (mergedConfig c)
          (getUnavailablePeriodAsEvents off nowYear ((mergedConfig c).unavailablePeriods.getD []))
          (computeBoundaries off f t (mergedConfig c) now).1
          (computeBoundaries off f t (mergedConfig c) now).2
          sweepFuel dayFuel (computeBoundaries off f t (mergedConfig c) now).1) := by
  unfold getAvailableTimeSlotsInCalendar
  rw [checkSearchParameters_ok tzOk nowYear c f t hft hval]
  simp [Bind.bind, Except.bind, pure, Except.pure]

/-- C5 (amended): the dayjs call raises the search-window error exactly for
a missing bound or `from` strictly after `to`; with present, well-ordered
bounds and a valid (merged) configuration the call succeeds, and in
particular `from = to` — which the claim said must fail — succeeds with an
empty slot list. -/
theorem search_window_failure_characterization :
    (∀ (tzOk : String → Bool) (nowYear : Int) (c : Configuration) (toD : Option Int),
        checkSearchParameters tzOk nowYear c none toD
          = .error ("Invalid boundaries for the search"))
    ∧ (∀ (tzOk : String → Bool) (nowYear : Int) (c : Configuration) (fromD : Option Int),
        checkSearchParameters tzOk nowYear c fromD none
          = .error ("Invalid boundaries for the search"))
    ∧ (∀ (tzOk : String → Bool) (nowYear : Int) (c : Configuration) (f t : Int), t < f →
        checkSearchParameters tzOk nowYear c (some f) (some t)
          = .error ("Invalid boundaries for the search"))
    ∧ (∀ (off : Int) (tzOk : String → Bool) (now nowYear : Int) (c : Configuration)
        (f t : Int) (dayFuel sweepFuel : Nat), f ≤ t →
        isConfigurationValid tzOk nowYear (mergedConfig c) = .ok true →
        ∃ slots, getAvailableTimeSlotsInCalendar off tzOk now nowYear c
            (some f) (some t) dayFuel sweepFuel = .ok slots)
    ∧ (∀ (off : Int) (tzOk : String → Bool) (now nowYear : Int) (c : Configuration)
        (t : Int) (dayFuel sweepFuel : Nat),
        isConfigurationValid tzOk nowYear (mergedConfig c) = .ok true →
        getAvailableTimeSlotsInCalendar off tzOk now nowYear c
            (some t) (some t) dayFuel sweepFuel = .ok []) := by
  refine ⟨?_, ?_, ?_, ?_, ?_⟩
  · intro tzOk nowYear c toD
    unfold checkSearchParameters
    cases toD <;> simp [Bind.bind, Except.bind]
  · intro tzOk nowYear c fromD
    unfold checkSearchParameters
    cases fromD <;> simp [Bind.bind, Except.bind]
  · intro tzOk nowYear c f t hlt
    unfold checkSearchParameters
    simp [hlt, Bind.bind, Except.bind]
  · intro off tzOk now nowYear c f t dayFuel sweepFuel hle hval
    exact ⟨_, getAvailable_ok_of_valid off tzOk now nowYear c f t dayFuel sweepFuel
      (by omega) hval⟩
  · intro off tzOk now nowYear c t dayFuel sweepFuel hval
    rw [getAvailable_ok_of_valid off tzOk now nowYear c t t dayFuel sweepFuel (by omega) hval]
    have h1 := computeBoundaries_lastTo_le off t t (mergedConfig c) now
    have h2 := computeBoundaries_from_le_firstFrom off t t (mergedConfig c) now
    rw [dayLoop_nil_of_le _ _ _ _ _ _ _ _ (by omega)]

/-- Witness for C5 (amended): a concrete equal-bounds call on a valid
configuration returns an empty result. -/
theorem search_window_failure_characterization_witness :
    getAvailableTimeSlotsInCalendar 0 tzAlways 0 1 cfgOverlappingShifts
        (some 100) (some 100) 2 5 = .ok [] :=
  search_window_failure_characterization.2.2.2.2 0 tzAlways 0 1 cfgOverlappingShifts 100 2 5
    (by rfl)

/-- Completing a value to the next multiple of a positive step lands on a
multiple of the step. -/
theorem add_step_complement_emod (x st : Int) (h : 0 < st) :
    (x + (st - x % st) % st) % st = 0 := by
  rcases eq_or_lt_of_le (Int.emod_nonneg x (by omega) : 0 ≤ x % st) with hu | hu
  · rw [← hu, sub_zero, Int.emod_self, add_zero, ← hu]
  · have hlt : x % st < st := Int.emod_lt_of_pos x h
    rw [@Int.emod_eq_of_lt (st - x % st) st (by omega) (by omega)]
    have hx : x = st * (x / st) + x % st := (Int.ediv_add_emod x st).symm
    have hsum : x + (st - x % st) = st * (x / st + 1) := by linarith [hx]
    rw [hsum]
    exact Int.mul_emod_right _ _

/-- Core of the alignment invariant: for a cursor value `n` whose sub-minute
part fits below one second (which both branches of the seconds rounding
establish), the rounded instant shifted by the before-buffer has a local
minute that is a multiple of the step, whenever the step divides 60. -/
theorem rounded_cursor_aligned (off b st n : Int) (hpos : 1 ≤ st) (hdvd : st ∣ 60)
    (hsub : n % 60000 = n % 1000) :
    localMinute off
      ((n + (st - localMinute off (n + b * 60000) % st) % st * 60000)
        - (n + (st - localMinute off (n + b * 60000) % st) % st * 60000) % 1000
        + b * 60000) % st = 0 := by
  set a := (st - localMinute off (n + b * 60000) % st) % st with ha
  unfold localMinute at ha ⊢
  have hr : (n + a * 60000) - (n + a * 60000) % 1000 = 60000 * (n / 60000 + a) := by omega
  rw [hr]
  have hq : (60000 * (n / 60000 + a) + b * 60000) / 60000 = n / 60000 + a + b := by omega
  rw [hq, Int.emod_emod_of_dvd _ hdvd]
  rw [show (n + b * 60000) / 60000 = n / 60000 + b from by omega,
    Int.emod_emod_of_dvd _ hdvd] at ha
  have hcomm : n / 60000 + a + b + off = (n / 60000 + b + off) + a := by ring
  rw [hcomm, ha]
  exact add_step_complement_emod (n / 60000 + b + off) st (by omega)

/-- Every slot pushed right after `_nextSearchMoment` rounding starts on a
local minute that is a multiple of the alignment step, whenever the step
divides 60. -/
theorem pushNewSlot_minute_aligned (off : Int) (c : Configuration) (s : Int)
    (hpos : 1 ≤ c.slotStartMinuteStep.getD 5) (hdvd : c.slotStartMinuteStep.getD 5 ∣ 60) :
    localMinute off ((pushNewSlot c (nextSearchMoment off c s)).2.startAt)
      % c.slotStartMinuteStep.getD 5 = 0 := by
  set st := c.slotStartMinuteStep.getD 5 with hst
  set b := c.minAvailableTimeBeforeSlot.getD 0 with hb
  set n := if secondsField s ≠ 0 then (s / 60000 + 1) * 60000 else s with hn
  have hstart : (pushNewSlot c (nextSearchMoment off c s)).2.startAt
      = (n + (st - localMinute off (n + b * 60000) % st) % st * 60000)
        - (n + (st - localMinute off (n + b * 60000) % st) % st * 60000) % 1000
        + b * 60000 := rfl
  rw [hstart]
  refine rounded_cursor_aligned off b st n hpos hdvd ?_
  rw [hn]
  unfold secondsField
  by_cases hsec : s / 1000 % 60 = 0
  · rw [if_neg (by omega)]
    omega
  · rw [if_pos (by omega)]
    omega

/-- Every slot produced by the cursor loop is pushed at a rounded cursor. -/
theorem sweepGo_mem_shape (off : Int) (c : Configuration) (cleaned : List DayjsPeriod)
    (searchEnd : Int) :
    ∀ (fuel : Nat) (s idx : Int) (slot : TimeSlot),
      slot ∈ sweepGo off c cleaned searchEnd fuel s idx →
      ∃ s0, slot = (pushNewSlot c (nextSearchMoment off c s0)).2 := by
  intro fuel
  induction fuel with
  | zero =>
    intro s idx slot h
    simp [sweepGo] at h
  | succ n ih =>
    intro s idx slot h
    unfold sweepGo at h
    by_cases hg : s ≤ searchEnd
    · rw [if_pos hg] at h
      rcases hfoc : (if 0 ≤ idx then cleaned[idx.toNat]? else none) with _ | ev <;>
        rw [hfoc] at h <;> simp only [] at h
      · rcases List.mem_cons.mp h with hhead | htail
        · exact ⟨s, hhead⟩
        · exact ih _ _ _ htail
      · by_cases hev : ev.startAt < nextSearchMoment off c s + getMinTimeWindowNeeded c * 60000
        · rw [if_pos hev] at h
          exact ih _ _ _ h
        · rw [if_neg hev] at h
          rcases List.mem_cons.mp h with hhead | htail
          · exact ⟨s, hhead⟩
          · exact ih _ _ _ htail
    · rw [if_neg hg] at h
      simp at h

/-- Lift of the slot shape through `_getAvailableTimeSlotsForShift`. -/
theorem shiftSlots_mem_shape (off : Int) (c : Configuration) (events : List DayjsPeriod)
    (fromM toM : Int) (fuel : Nat) (slot : TimeSlot)
    (h : slot ∈ getAvailableTimeSlotsForShift off c events fromM toM fuel) :
    ∃ s0, slot = (pushNewSlot c (nextSearchMoment off c s0)).2 := by
  unfold getAvailableTimeSlotsForShift at h
  exact sweepGo_mem_shape _ _ _ _ _ _ _ _ h

/-- Lift of the slot shape through one day's shifts. -/
theorem slotsForDay_mem_shape (off : Int) (c : Configuration) (events : List DayjsPeriod)
    (firstFrom lastTo : Int) (sweepFuel : Nat) (t : Int) (slot : TimeSlot)
    (h : slot ∈ slotsForDay off c events firstFrom lastTo sweepFuel t) :
    ∃ s0, slot = (pushNewSlot c (nextSearchMoment off c s0)).2 := by
  unfold slotsForDay at h
  rcases hwd : c.availablePeriods.find?
      (fun p => decide (p.isoWeekDay = isoWeekDayOf off t)) with _ | wd <;>
    rw [hwd] at h
  · simp at h
  · rcases List.mem_flatMap.mp h with ⟨sh, hsh, hmem⟩
    by_cases hcl : max firstFrom (getMomentsFromShift off t sh).1
        ≤ min lastTo (getMomentsFromShift off t sh).2
    · rw [if_pos hcl] at hmem
      exact shiftSlots_mem_shape _ _ _ _ _ _ _ hmem
    · rw [if_neg hcl] at hmem
      simp at hmem

/-- Lift of the slot shape through the day iteration. -/
theorem dayLoop_mem_shape (off : Int) (c : Configuration) (events : List DayjsPeriod)
    (firstFrom lastTo : Int) (sweepFuel : Nat) :
    ∀ (fuel : Nat) (t : Int) (slot : TimeSlot),
      slot ∈ dayLoop off c events firstFrom lastTo sweepFuel fuel t →
      ∃ s0, slot = (pushNewSlot c (nextSearchMoment off c s0)).2 := by
  intro fuel
  induction fuel with
  | zero =>
    intro t slot h
    simp [dayLoop] at h
  | succ n ih =>
    intro t slot h
    unfold dayLoop at h
    by_cases hg : t < lastTo
    · rw [if_pos hg] at h
      rcases List.mem_append.mp h with hday | hrest
      · exact slotsForDay_mem_shape _ _ _ _ _ _ _ _ hday
      · exact ih _ _ hrest
    · rw [if_neg hg] at h
      simp at h

/-- A successful `_checkSearchParameters` returns exactly the merged copy of
the configuration. -/
theorem checkSearchParameters_ok_config (tzOk : String → Bool) (nowYear : Int)
    (c : Configuration) (fromD toD : Option Int) (uc : Configuration)
    (h : checkSearchParameters tzOk nowYear c fromD toD = .ok uc) : uc = mergedConfig c := by
  unfold checkSearchParameters at h
  rcases fromD with _ | f
  · simp [Bind.bind, Except.bind] at h
  rcases toD with _ | t
  · simp [Bind.bind, Except.bind] at h
  by_cases hft : t < f
  · simp [hft, Bind.bind, Except.bind] at h
  · simp only [if_neg hft, Bind.bind, Except.bind] at h
    cases hval : isConfigurationValid tzOk nowYear (mergedConfig c) with
    | error e =>
      rw [hval] at h
      simp at h
    | ok bb =>
      rw [hval] at h
      simp [pure, Except.pure] at h
      exact h.symm

/-- C4 (amended): the start minute of every emitted slot is a multiple of
the alignment step (default 5) directly — without first subtracting the
before-buffer, which the rounding already incorporates — provided the step
divides 60 (alignment in minute-of-hour arithmetic is only meaningful for
steps that divide the hour; the default 5 and all test values qualify). -/
theorem emitted_slot_minute_aligned (off : Int) (tzOk : String → Bool) (now nowYear : Int)
    (c : Configuration) (fromD toD : Option Int) (dayFuel sweepFuel : Nat)
    (slots : List TimeSlot)
    (hpos : 1 ≤ c.slotStartMinuteStep.getD 5)
    (hdvd : c.slotStartMinuteStep.getD 5 ∣ 60)
    (hrun : getAvailableTimeSlotsInCalendar off tzOk now nowYear c fromD toD dayFuel sweepFuel
      = .ok slots) :
    ∀ slot ∈ slots, localMinute off slot.startAt % c.slotStartMinuteStep.getD 5 = 0 := by
  intro slot hslot
  unfold getAvailableTimeSlotsInCalendar at hrun
  cases hcsp : checkSearchParameters tzOk nowYear c fromD toD with
  | error e =>
    rw [hcsp] at hrun
    simp [Bind.bind, Except.bind] at hrun
  | ok uc =>
    have huc : uc = mergedConfig c :=
      checkSearchParameters_ok_config tzOk nowYear c fromD toD uc hcsp
    rw [hcsp] at hrun
    simp only [Bind.bind, Except.bind, pure, Except.pure, Except.ok.injEq] at hrun
    subst hrun
    obtain ⟨s0, rfl⟩ := dayLoop_mem_shape _ _ _ _ _ _ _ _ _ hslot
    have hmerge : (mergedConfig c).slotStartMinuteStep.getD 5 = c.slotStartMinuteStep.getD 5 :=
      rfl
    subst huc
    rw [← hmerge]
    exact pushNewSlot_minute_aligned off (mergedConfig c) s0 (by rw [hmerge]; exact hpos)
      (by rw [hmerge]; exact hdvd)

/-- Witness for C4 (amended): in the concrete benchmark run the first slot
starts at 10:05, a multiple of the default step 5. -/
theorem emitted_slot_minute_aligned_witness : localMinute 0 381900000 % 5 = 0 :=
  emitted_slot_minute_aligned 0 tzAlways 345600000 1 cfgFridayShift
    (some 381780000) (some 384000000) 3 20
    [⟨381900000, 382800000, 15⟩, ⟨382800000, 383700000, 15⟩]
    (by decide) (by decide) (by rfl)
    ⟨381900000, 382800000, 15⟩ (List.Mem.head _)

/-- Reversing the arguments of the lexicographic comparison swaps its
result. -/
theorem compareChars_swap (x : List Char) :
    ∀ y : List Char, compareChars y x = (compareChars x y).swap := by
  induction x with
  | nil =>
    intro y
    cases y <;> simp [compareChars, Ordering.swap]
  | cons a as ih =>
    intro y
    cases y with
    | nil => simp [compareChars, Ordering.swap]
    | cons b bs =>
      simp only [compareChars]
      rcases lt_trichotomy a b with hab | hab | hab
      · rw [if_neg (asymm hab), if_pos hab, if_pos hab]
        rfl
      · subst hab
        simp only [lt_irrefl, if_neg (lt_irrefl a)]
        exact ih bs
      · rw [if_pos hab, if_neg (asymm hab), if_pos hab]
        rfl

/-- The non-positive comparison outcome is transitive. -/
theorem compareChars_not_gt_trans {x : List Char} :
    ∀ {y z : List Char}, compareChars x y ≠ Ordering.gt →
      compareChars y z ≠ Ordering.gt → compareChars x z ≠ Ordering.gt := by
  induction x with
  | nil =>
    intro y z _ _
    cases z <;> simp [compareChars]
  | cons a as ih =>
    intro y z h1 h2
    cases y with
    | nil => simp [compareChars] at h1
    | cons b bs =>
      cases z with
      | nil => simp [compareChars] at h2
      | cons c cs =>
        simp only [compareChars] at h1 h2 ⊢
        have hba : ¬ b < a := by
          intro hba
          rw [if_neg (asymm hba), if_pos hba] at h1
          exact h1 rfl
        have hcb : ¬ c < b := by
          intro hcb
          rw [if_neg (asymm hcb), if_pos hcb] at h2
          exact h2 rfl
        by_cases hac : a < c
        · rw [if_pos hac]
          simp
        · have hca : ¬ c < a := fun hca =>
            absurd (le_trans (not_lt.mp hba) (not_lt.mp hcb)) (not_le.mpr hca)
          rw [if_neg hac, if_neg hca]
          have hab : ¬ a < b := fun hab => hac (lt_of_lt_of_le hab (not_lt.mp hcb))
          have hbc : ¬ b < c := fun hbc => hac (lt_of_le_of_lt (not_lt.mp hba) hbc)
          rw [if_neg hab, if_neg hba] at h1
          rw [if_neg hbc, if_neg hcb] at h2
          exact ih h1 h2

/-- The shift sort order is total. -/
theorem shiftRel_total (a b : Shift) : shiftRel a b ∨ shiftRel b a := by
  unfold shiftRel compareStr
  by_cases h : compareChars a.startTime.data b.startTime.data = Ordering.gt
  · right
    rw [compareChars_swap, h]
    simp [Ordering.swap]
  · exact Or.inl h

/-- The shift sort order is transitive. -/
theorem shiftRel_trans {a b c : Shift} (h1 : shiftRel a b) (h2 : shiftRel b c) :
    shiftRel a c :=
  compareChars_not_gt_trans h1 h2

/-- Every element of a merge-pass result takes its start time from the
pending candidate or from the remaining input. -/
theorem mergeInto_mem_start (l : List Shift) :
    ∀ (a x : Shift), x ∈ mergeInto a l →
      x.startTime = a.startTime ∨ ∃ y ∈ l, x.startTime = y.startTime := by
  induction l with
  | nil =>
    intro a x hx
    simp only [mergeInto, List.mem_singleton] at hx
    exact Or.inl (by rw [hx])
  | cons b rest ih =>
    intro a x hx
    unfold mergeInto at hx
    by_cases hc : compareStr a.endTime b.startTime ≠ Ordering.lt
    · rw [if_pos hc] at hx
      rcases ih _ _ hx with h | ⟨y, hy, hxy⟩
      · exact Or.inl h
      · exact Or.inr ⟨y, List.mem_cons_of_mem _ hy, hxy⟩
    · rw [if_neg hc] at hx
      rcases List.mem_cons.mp hx with rfl | htail
      · exact Or.inl rfl
      · rcases ih _ _ htail with h | ⟨y, hy, hxy⟩
        · exact Or.inr ⟨b, List.mem_cons_self _ _, h⟩
        · exact Or.inr ⟨y, List.mem_cons_of_mem _ hy, hxy⟩

/-- A merge pass emits a first shift carrying the candidate's start time. -/
theorem mergeInto_head_start (l : List Shift) :
    ∀ a : Shift, ∃ z rest, mergeInto a l = z :: rest ∧ z.startTime = a.startTime := by
  induction l with
  | nil =>
    intro a
    exact ⟨a, [], rfl, rfl⟩
  | cons b rest ih =>
    intro a
    unfold mergeInto
    by_cases hc : compareStr a.endTime b.startTime ≠ Ordering.lt
    · rw [if_pos hc]
      obtain ⟨z, r', hz, hzs⟩ := ih _
      exact ⟨z, r', hz, hzs⟩
    · rw [if_neg hc]
      exact ⟨a, _, rfl, rfl⟩

/-- A merge pass over a start-sorted list yields a start-sorted list whose
consecutive shifts are separated by strict gaps. -/
theorem mergeInto_sorted_gap (l : List Shift) :
    ∀ a : Shift, (a :: l).Pairwise shiftRel →
      (mergeInto a l).Pairwise shiftRel ∧ (mergeInto a l).Chain' gapRel := by
  induction l with
  | nil =>
    intro a _
    constructor <;> simp [mergeInto]
  | cons b rest ih =>
    intro a hp
    have hab : shiftRel a b := (List.pairwise_cons.mp hp).1 b (List.mem_cons_self _ _)
    have haRest : ∀ x ∈ rest, shiftRel a x := fun x hx =>
      (List.pairwise_cons.mp hp).1 x (List.mem_cons_of_mem _ hx)
    have hptail : (b :: rest).Pairwise shiftRel := (List.pairwise_cons.mp hp).2
    unfold mergeInto
    by_cases hc : compareStr a.endTime b.startTime ≠ Ordering.lt
    · rw [if_pos hc]
      apply ih
      rw [List.pairwise_cons]
      exact ⟨fun x hx => haRest x hx, (List.pairwise_cons.mp hptail).2⟩
    · rw [if_neg hc]
      rw [not_ne_iff] at hc
      obtain ⟨hPM, hCM⟩ := ih b hptail
      obtain ⟨z, r', hzeq, hzs⟩ := mergeInto_head_start rest b
      constructor
      · rw [List.pairwise_cons]
        refine ⟨fun x hx => ?_, hPM⟩
        rcases mergeInto_mem_start rest b x hx with hxs | ⟨y, hy, hxy⟩
        · unfold shiftRel compareStr at hab ⊢
          rw [hxs]
          exact hab
        · have := haRest y hy
          unfold shiftRel compareStr at this ⊢
          rw [hxy]
          exact this
      · rw [hzeq, List.chain'_cons]
        constructor
        · unfold gapRel compareStr
          rw [hzs]
          exact hc
        · rw [hzeq] at hCM
          exact hCM

/-- The merging sweep preserves start-sortedness and leaves strict gaps. -/
theorem mergeRun_sorted_gap (l : List Shift) (hp : l.Pairwise shiftRel) :
    (mergeRun l).Pairwise shiftRel ∧ (mergeRun l).Chain' gapRel := by
  cases l with
  | nil => constructor <;> simp [mergeRun]
  | cons a rest => exact mergeInto_sorted_gap rest a hp

/-- A merge pass over a list already separated by strict gaps is the
identity. -/
theorem mergeInto_of_chain (l : List Shift) :
    ∀ a : Shift, (a :: l).Chain' gapRel → mergeInto a l = a :: l := by
  induction l with
  | nil =>
    intro a _
    rfl
  | cons b rest ih =>
    intro a hch
    rw [List.chain'_cons] at hch
    unfold mergeInto
    rw [if_neg (not_ne_iff.mpr hch.1)]
    rw [ih b hch.2]

/-- The merging sweep over a gap-separated list is the identity. -/
theorem mergeRun_of_chain (l : List Shift) (h : l.Chain' gapRel) : mergeRun l = l := by
  cases l with
  | nil => rfl
  | cons a rest => exact mergeInto_of_chain rest a h

/-- C6: `_mergeOverlappingShifts` is idempotent — merging an already-merged
shift list returns the same list — and a list of fewer than two shifts is
returned unchanged. -/
theorem mergeOverlappingShifts_idempotent :
    (∀ s : List Shift,
        mergeOverlappingShifts (mergeOverlappingShifts s) = mergeOverlappingShifts s)
    ∧ ∀ s : List Shift, s.length < 2 → mergeOverlappingShifts s = s := by
  have hshort : ∀ s : List Shift, s.length < 2 → mergeOverlappingShifts s = s := by
    intro s h
    unfold mergeOverlappingShifts
    rw [if_pos h]
  refine ⟨?_, hshort⟩
  intro s
  by_cases h : s.length < 2
  · rw [hshort s h]
    exact hshort s h
  · have hs : mergeOverlappingShifts s = mergeRun (List.insertionSort shiftRel s) := by
      unfold mergeOverlappingShifts
      rw [if_neg h]
    haveI : IsTotal Shift shiftRel := ⟨shiftRel_total⟩
    haveI : IsTrans Shift shiftRel := ⟨fun a b c h1 h2 => shiftRel_trans h1 h2⟩
    have hsorted : (List.insertionSort shiftRel s).Pairwise shiftRel :=
      List.sorted_insertionSort shiftRel s
    obtain ⟨hP, hC⟩ := mergeRun_sorted_gap _ hsorted
    rw [hs]
    by_cases hR : (mergeRun (List.insertionSort shiftRel s)).length < 2
    · rw [hshort _ hR]
    · unfold mergeOverlappingShifts
      rw [if_neg hR]
      rw [List.Sorted.insertionSort_eq hP]
      exact mergeRun_of_chain _ hC

/-- Witness for C6: a concrete overlapping pair merges to one shift and
re-merging is stable, and a singleton list is returned unchanged. -/
theorem mergeOverlappingShifts_idempotent_witness :
    mergeOverlappingShifts (mergeOverlappingShifts [⟨"10:00", "12:00"⟩, ⟨"11:00", "13:00"⟩])
        = mergeOverlappingShifts [⟨"10:00", "12:00"⟩, ⟨"11:00", "13:00"⟩]
    ∧ mergeOverlappingShifts [⟨"09:00", "10:00"⟩] = [⟨"09:00", "10:00"⟩] :=
  ⟨mergeOverlappingShifts_idempotent.1 _,
   mergeOverlappingShifts_idempotent.2 [⟨"09:00", "10:00"⟩] (by decide)⟩

/-- Advancing a year adds the departing year's day count. -/
theorem daysBeforeYear_succ (y : Int) :
    daysBeforeYear (y + 1) = daysBeforeYear y + (if isLeapYear y then 366 else 365) := by
  unfold daysBeforeYear isLeapYear
  by_cases h4 : y % 4 = 0 <;> by_cases h100 : y % 100 = 0 <;> by_cases h400 : y % 400 = 0 <;>
    simp [h4, h100, h400] <;> omega

set_option maxHeartbeats 1000000 in
/-- Month offsets are bounded by December's. -/
theorem daysBeforeMonth_le (y m : Int) :
    daysBeforeMonth y m ≤ 334 + (if isLeapYear y then 1 else 0) := by
  rcases Bool.eq_false_or_eq_true (isLeapYear y) with hl | hl <;>
    unfold daysBeforeMonth <;>
    simp only [hl, Bool.false_eq_true, and_false, and_true, if_false, if_true,
      ite_true, ite_false] <;>
    split_ifs <;> omega

/-- No month is longer than 31 days. -/
theorem daysInMonth_le (y m : Int) : daysInMonth y m ≤ 31 := by
  unfold daysInMonth
  split_ifs <;> omega

/-- The within-year day offset of a valid month/day stays below the year's
day count. -/
theorem dayOffset_le (y m d : Int) (hm1 : 1 ≤ m) (hm2 : m ≤ 12) (hd1 : 1 ≤ d)
    (hd2 : d ≤ daysInMonth y m) :
    daysBeforeMonth y m + (d - 1) ≤ (if isLeapYear y then 366 else 365) - 1 := by
  have hA := daysBeforeMonth_le y m
  have hB := daysInMonth_le y m
  rcases Bool.eq_false_or_eq_true (isLeapYear y) with hl | hl <;>
    simp only [hl, Bool.false_eq_true, if_false, if_true, ite_true, ite_false] at hA ⊢ <;>
    omega

set_option maxHeartbeats 1000000 in
/-- Month offsets are nonnegative. -/
theorem daysBeforeMonth_nonneg (y m : Int) : 0 ≤ daysBeforeMonth y m := by
  unfold daysBeforeMonth
  split_ifs <;> omega

/-- January has offset zero in every year. -/
theorem daysBeforeMonth_one (y : Int) : daysBeforeMonth y 1 = 0 := by
  unfold daysBeforeMonth
  norm_num

/-- A valid date of year `y` lies strictly before January 1 of year
`y + 1`. -/
theorem dayNumber_lt_next_jan1 (y m d : Int) (hm1 : 1 ≤ m) (hm2 : m ≤ 12) (hd1 : 1 ≤ d)
    (hd2 : d ≤ daysInMonth y m) : dayNumber y m d < daysBeforeYear (y + 1) := by
  have h1 := daysBeforeYear_succ y
  have h2 := dayOffset_le y m d hm1 hm2 hd1 hd2
  unfold dayNumber
  by_cases hl : isLeapYear y = true <;> simp [hl] at h1 h2 <;> omega

/-- January 1 of a year precedes (weakly) every date expressed in it. -/
theorem jan1_le_dayNumber (y m d : Int) (hd1 : 1 ≤ d) :
    daysBeforeYear y ≤ dayNumber y m d := by
  have := daysBeforeMonth_nonneg y m
  unfold dayNumber
  omega

/-- Field bounds established by `_isPeriodMomentValid` for a yearless
moment. -/
theorem periodMomentValid_yearless (nowYear : Int) (pm : PeriodMoment)
    (hy : pm.year = none) (hv : isPeriodMomentValid nowYear pm = true) :
    0 ≤ pm.month ∧ pm.month ≤ 11 ∧ 1 ≤ pm.day ∧ pm.day ≤ daysInMonth nowYear (pm.month + 1)
      ∧ 0 ≤ pm.hour.getD 0 ∧ pm.hour.getD 0 ≤ 23
      ∧ 0 ≤ pm.minute.getD 0 ∧ pm.minute.getD 0 ≤ 59 := by
  obtain ⟨yr, mo, d, hr, mi⟩ := pm
  replace hy : yr = none := hy
  subst hy
  unfold isPeriodMomentValid at hv
  rcases hr with _ | h <;> rcases mi with _ | m <;>
    simp_all [Bool.and_eq_true, decide_eq_true_eq] <;> omega

/-- C7: consolidating a yearly-recurring blocked period (no `year` on
either endpoint) whose resolved end precedes its resolved start advances
the end by exactly one civil year: the consolidated event keeps the start
resolved in the reference year, takes the end resolved in the following
year, satisfies `startAt < endAt`, and spans the year boundary (the start
lies before January 1 of the next year and the end at or after it). -/
theorem yearless_wrap_advances_end_one_year (off nowYear : Int) (p : Period)
    (hsy : p.startAt.year = none) (hey : p.endAt.year = none)
    (hvs : isPeriodMomentValid nowYear p.startAt = true)
    (hve : isPeriodMomentValid nowYear p.endAt = true)
    (hwrap : resolvePeriodEnd off nowYear p.endAt < resolvePeriodStart off nowYear p.startAt) :
    consolidatePeriod off nowYear p
      = { startAt := resolvePeriodStart off nowYear p.startAt,
          endAt := resolvePeriodEnd off (nowYear + 1) p.endAt }
    ∧ (consolidatePeriod off nowYear p).startAt < civilToInstant off (nowYear + 1) 1 1 0 0
    ∧ civilToInstant off (nowYear + 1) 1 1 0 0 ≤ (consolidatePeriod off nowYear p).endAt
    ∧ (consolidatePeriod off nowYear p).startAt < (consolidatePeriod off nowYear p).endAt := by
  obtain ⟨hm0, hm11, hd1, hd2, hh0, hh23, hmi0, hmi59⟩ :=
    periodMomentValid_yearless nowYear p.startAt hsy hvs
  obtain ⟨gm0, gm11, gd1, gd2, gh0, gh23, gmi0, gmi59⟩ :=
    periodMomentValid_yearless nowYear p.endAt hey hve
  have hcons : consolidatePeriod off nowYear p
      = { startAt := resolvePeriodStart off nowYear p.startAt,
          endAt := resolvePeriodEnd off (nowYear + 1) p.endAt } := by
    unfold consolidatePeriod
    rw [hsy, hey]
    simp only [Option.getD_none]
    rw [if_pos hwrap]
  have hjan : civilToInstant off (nowYear + 1) 1 1 0 0
      = daysBeforeYear (nowYear + 1) * 86400000 - off * 60000 := by
    unfold civilToInstant dayNumber
    rw [daysBeforeMonth_one]
    ring
  have hstart : resolvePeriodStart off nowYear p.startAt
      < civilToInstant off (nowYear + 1) 1 1 0 0 := by
    have hlt := dayNumber_lt_next_jan1 nowYear (p.startAt.month + 1) p.startAt.day
      (by omega) (by omega) hd1 hd2
    rw [hjan]
    unfold resolvePeriodStart civilToInstant
    split_ifs <;> omega
  have hend : civilToInstant off (nowYear + 1) 1 1 0 0
      ≤ resolvePeriodEnd off (nowYear + 1) p.endAt := by
    have hle := jan1_le_dayNumber (nowYear + 1) (p.endAt.month + 1) p.endAt.day gd1
    rw [hjan]
    unfold resolvePeriodEnd civilToInstant
    split_ifs <;> omega
  rw [hcons]
  exact ⟨rfl, hstart, hend, lt_of_lt_of_le hstart hend⟩

/-- Witness for C7: the December 20 → January 5 recurring period, resolved
for reference year 2023, wraps and yields an event from 2023-12-20 to the
end of 2024-01-05. -/
theorem yearless_wrap_advances_end_one_year_witness :
    consolidatePeriod 0 2023 periodDecToJan
      = { startAt := resolvePeriodStart 0 2023 periodDecToJan.startAt,
          endAt := resolvePeriodEnd 0 2024 periodDecToJan.endAt }
    ∧ (consolidatePeriod 0 2023 periodDecToJan).startAt
      < (consolidatePeriod 0 2023 periodDecToJan).endAt :=
  have h := yearless_wrap_advances_end_one_year 0 2023 periodDecToJan rfl rfl
    (by decide) (by decide) (by decide)
  ⟨h.1, h.2.2.2⟩

end TimeSlots
